import Mathlib

/-!
Verification of the CSV normalization and candlestick-transformation pipeline
of `src/server.py` (function `get_data`, lines 104-152).

The pipeline, as written in the source, is:
1. `pd.read_csv` produces a table whose cells are either NaN (blank fields),
   numbers, or strings (lines 105).
2. Column names are lower-cased (line 119) and renamed through a fixed synonym
   table (lines 109-122).
3. The five required canonical columns are checked; if any is absent the
   request fails with a message listing exactly the missing columns and the
   columns found (lines 124-127).
4. The `Datetime` column is parsed (`pd.to_datetime`, line 131) and converted
   to epoch milliseconds (`x.timestamp() * 1000`, line 133).
5. Rows are sorted ascending by the millisecond key (line 136).
6. Each row is emitted as `{x: int(ms), y: [float(Open), float(High),
   float(Low), float(Close)]}` (lines 139-149).
Any exception raised along the way aborts the whole request (lines 151-152),
so the transform is modelled as an `Except` value: either a full output list
or a single structured error, never partial output.
-/

unseal Rat.add Rat.mul Rat.sub Rat.inv List.merge List.mergeSort

namespace Server

/-- A cell value as produced by `pd.read_csv`: a blank field (read by pandas
as NaN), a numeric field, or a text field (as in a column that pandas left as
strings).  Finite numbers are modelled exactly as rationals. -/
inductive Cell
  | blank
  | num (q : ℚ)
  | text (s : String)
deriving DecidableEq

/-- A Python float as produced by `float(...)` on a cell: NaN, a signed
infinity, or a finite value (modelled exactly as a rational; IEEE rounding of
decimal literals is not modelled). -/
inductive Val
  | nan
  | inf
  | ninf
  | num (q : ℚ)
deriving DecidableEq

/-- A float is finite when it is neither NaN nor an infinity. -/
def Val.isFinite : Val → Bool
  | .num _ => true
  | _ => false

/-- Negation of a Python float (used for a leading minus sign; note that
`float("-nan")` is still NaN). -/
def Val.neg : Val → Val
  | .nan => .nan
  | .inf => .ninf
  | .ninf => .inf
  | .num q => .num (-q)

/-- One output record of the transform: `{x: int epoch-ms, y: [o, h, l, c]}`
(lines 141-148 of `src/server.py`). -/
structure ChartRecord where
  x : ℤ
  y : List Val
deriving DecidableEq

/-- The ways `get_data` can fail while transforming a table.  Every branch of
the Python code that raises (or returns an error response) is represented:
* `schemaError missing found` — the 400 response of lines 126-127; carries
  exactly the missing required columns and the columns actually present.
* `assembleError` — `pd.to_datetime` applied to a two-column selection, which
  happens when two source columns were renamed to `Datetime`; pandas raises a
  ValueError about assembling year/month/day mappings.
* `natError` — `NaT.timestamp()` raises, which happens when a `Datetime`
  cell is blank (read as NaN, converted by `to_datetime` to NaT).
* `dtParseError raw` — `pd.to_datetime` cannot parse the text `raw`.
* `floatError raw` — `float(raw)` raises `ValueError: could not convert
  string to float: ...` carrying only the raw value, no row or column.
* `keyError col` / `seriesError col` — row lookup of a column that occurs
  zero times / more than once (then `float` receives a Series and raises). -/
inductive TransformError
  | schemaError (missing found : List String)
  | assembleError
  | natError
  | dtParseError (raw : String)
  | floatError (raw : String)
  | keyError (col : String)
  | seriesError (col : String)
deriving DecidableEq

/-- Left-to-right effectful map over a list, aborting at the first error:
the shape of both the pandas column operations (which raise at the first bad
element) and the output loop of lines 140-149. -/
def mapE (f : α → Except ε β) : List α → Except ε (List β)
  | [] => .ok []
  | a :: l =>
    match f a with
    | .error e => .error e
    | .ok b =>
      match mapE f l with
      | .error e => .error e
      | .ok bs => .ok (b :: bs)

/-! ### Character-level parsing helpers (models of library routines) -/

/-- Numeric value of a digit list (most significant first). -/
def digitsVal (l : List Char) : Nat :=
  l.foldl (fun a c => 10 * a + (c.toNat - 48)) 0

/-- All characters are decimal digits. -/
def allDigits (l : List Char) : Bool := l.all Char.isDigit

/-- A non-empty all-digit list parsed as a natural number. -/
def natOfDigits? (l : List Char) : Option Nat :=
  if !l.isEmpty && allDigits l then some (digitsVal l) else none

/-- Split a character list at every occurrence of `c` (separators dropped,
empty chunks kept). -/
def splitOnChar (c : Char) : List Char → List (List Char)
  | [] => [[]]
  | a :: l =>
    let r := splitOnChar c l
    if a == c then [] :: r
    else
      match r with
      | [] => [[a]]
      | h :: t => (a :: h) :: t

/-- Strip leading and trailing whitespace (Python `float` and the date parser
both ignore surrounding whitespace). -/
def trimChars (l : List Char) : List Char :=
  ((l.dropWhile Char.isWhitespace).reverse.dropWhile Char.isWhitespace).reverse

/-! ### Model of `float(...)` (Python numeric coercion, lines 144-147) -/

/-- Mantissa of a decimal literal: digits with an optional decimal point,
at least one digit overall (`"1"`, `"1.5"`, `"1."`, `".5"`). -/
def decMant? (l : List Char) : Option ℚ :=
  match splitOnChar '.' l with
  | [ip] =>
    if !ip.isEmpty && allDigits ip then some ((digitsVal ip : ℚ)) else none
  | [ip, fp] =>
    if (allDigits ip && allDigits fp) && !(ip.isEmpty && fp.isEmpty) then
      some ((digitsVal ip : ℚ) + (digitsVal fp : ℚ) / ((10 : ℚ) ^ fp.length))
    else none
  | _ => none

/-- Optionally signed exponent digits after `e`. -/
def decExp? (l : List Char) : Option ℤ :=
  match l with
  | '+' :: r => (natOfDigits? r).map (fun n => (n : ℤ))
  | '-' :: r => (natOfDigits? r).map (fun n => -(n : ℤ))
  | r => (natOfDigits? r).map (fun n => (n : ℤ))

/-- Unsigned decimal literal with optional exponent, valued exactly. -/
def decNum? (l : List Char) : Option ℚ :=
  match splitOnChar 'e' (l.map Char.toLower) with
  | [m] => decMant? m
  | [m, e] =>
    match decMant? m, decExp? e with
    | some q, some z => some (q * (10 : ℚ) ^ z)
    | _, _ => none
  | _ => none

/-- Unsigned body of a Python float literal: `inf`/`infinity`/`nan`
(case-insensitive) or a decimal literal. -/
def pyFloatBody (l : List Char) : Option Val :=
  let low := l.map Char.toLower
  if low = "inf".toList ∨ low = "infinity".toList then some .inf
  else if low = "nan".toList then some .nan
  else (decNum? l).map .num

/-- Model of Python `float` applied to a string: surrounding whitespace is
stripped, an optional sign is honoured, then an `inf`/`nan` spelling or a
decimal literal with optional fraction and exponent is accepted.  (Underscored
digit groups, accepted by CPython, are not modelled; no claim involves them.)
Returns `none` exactly when `float(...)` raises `ValueError`. -/
def pyFloat (s : String) : Option Val :=
  match trimChars s.toList with
  | '+' :: r => pyFloatBody r
  | '-' :: r => (pyFloatBody r).map Val.neg
  | r => pyFloatBody r

/-! ### Model of `pd.to_datetime` on the date strings of this data

The source parses with `pd.to_datetime(col, infer_datetime_format=True)`
(line 131) and documents the expected layout as `DD/MM/YY HH:MM`
(docstring, line 95).  The model implements the dateutil behaviour on
slash-separated dates: month-first unless the first field exceeds 12,
year-first when the first field exceeds 31, two-digit years pivoted at 70,
with an optional `H:MM` or `H:MM:SS` time. -/

/-- Gregorian leap-year test. -/
def isLeap (y : ℤ) : Bool := (y % 4 == 0 && y % 100 != 0) || y % 400 == 0

/-- Number of days in a month. -/
def daysInMonth (y : ℤ) (m : Nat) : Nat :=
  if m = 2 then (if isLeap y then 29 else 28)
  else if m = 4 ∨ m = 6 ∨ m = 9 ∨ m = 11 then 30
  else 31

/-- Days from 1970-01-01 to the given civil date (the standard
days-from-civil computation over eras of 400 years). -/
def daysFromCivil (y : ℤ) (m d : Nat) : ℤ :=
  let y' : ℤ := if m ≤ 2 then y - 1 else y
  let era : ℤ := y'.fdiv 400
  let yoe : ℤ := y' - era * 400
  let mp : ℤ := ((m : ℤ) + 9) % 12
  let doy : ℤ := (153 * mp + 2).fdiv 5 + (d : ℤ) - 1
  let doe : ℤ := yoe * 365 + yoe.fdiv 4 - yoe.fdiv 100 + doy
  era * 146097 + doe - 719468

/-- A two-digit year is expanded with the usual pivot (00-69 → 2000s,
70-99 → 1900s); longer years are taken literally. -/
def yearOfNum (c : Nat) : ℤ :=
  if c ≥ 100 then (c : ℤ) else if c < 70 then (2000 + c : ℤ) else (1900 + c : ℤ)

/-- Parse a slash-separated date: year-first when the leading field cannot be
a day, otherwise month-first unless the leading field exceeds 12 (dayfirst
fallback), validating the day against the month length. -/
def parseDMY (l : List Char) : Option (ℤ × Nat × Nat) :=
  match (splitOnChar '/' l).mapM natOfDigits? with
  | some [a, b, c] =>
    let (y, mm, dd) :=
      if a > 31 then ((a : ℤ), b, c)
      else if a ≤ 12 then (yearOfNum c, a, b)
      else (yearOfNum c, b, a)
    if 1 ≤ mm ∧ mm ≤ 12 ∧ 1 ≤ dd ∧ dd ≤ daysInMonth y mm then
      some (y, mm, dd)
    else none
  | _ => none

/-- Parse a clock time `H:MM` or `H:MM:SS` as seconds within the day. -/
def parseHMS (l : List Char) : Option ℚ :=
  match (splitOnChar ':' l).mapM natOfDigits? with
  | some [h, mi] =>
    if h ≤ 23 ∧ mi ≤ 59 then some ((3600 * h + 60 * mi : ℕ) : ℚ) else none
  | some [h, mi, s] =>
    if h ≤ 23 ∧ mi ≤ 59 ∧ s ≤ 59 then
      some ((3600 * h + 60 * mi + s : ℕ) : ℚ)
    else none
  | _ => none

/-- Model of the datetime parse of line 131 on a text cell: a date with an
optional time, returning seconds since the epoch with the wall-clock fields
mapped directly (pandas applies no timezone conversion to naive input).
Returns `none` exactly when `pd.to_datetime` raises on that element. -/
def parseDT (s : String) : Option ℚ :=
  let parts := (splitOnChar ' ' (trimChars s.toList)).filter (fun p => !p.isEmpty)
  match parts with
  | [d] =>
    (parseDMY d).map (fun p => ((daysFromCivil p.1 p.2.1 p.2.2 * 86400 : ℤ) : ℚ))
  | [d, t] =>
    match parseDMY d, parseHMS t with
    | some p, some secs =>
      some (((daysFromCivil p.1 p.2.1 p.2.2 * 86400 : ℤ) : ℚ) + secs)
    | _, _ => none
  | _ => none

/-! ### The transform itself -/

/-- The synonym table of lines 109-116, applied to an already lower-cased
column name.  Keys absent from the table pass through unchanged (the
restriction `if k in df.columns` of line 122 does not change the result of
the rename). -/
def mapName (s : String) : String :=
  if s = "datetime" then "Datetime"
  else if s = "open" then "Open"
  else if s = "high" then "High"
  else if s = "low" then "Low"
  else if s = "close" then "Close"
  else if s = "date" then "Datetime"
  else s

/-- Python `str.lower()` on a column name: character-wise lower-casing
(line 119). -/
def lowerString (s : String) : String := ⟨s.data.map Char.toLower⟩

/-- An input table: an ordered header naming each column, and rows of cells
aligned with the header. -/
structure RawTable where
  header : List String
  rows : List (List Cell)

/-- The column names after lower-casing (line 119) and renaming (line 122). -/
def mappedHeader (t : RawTable) : List String :=
  t.header.map (fun c => mapName (lowerString c))

/-- The five required canonical columns, in the order of line 124. -/
def requiredCols : List String := ["Datetime", "Open", "High", "Low", "Close"]

/-- The four numeric columns in the order they are read in lines 144-147. -/
def ohlcCols : List String := ["Open", "High", "Low", "Close"]

/-- The required columns absent after renaming (line 126). -/
def missingCols (t : RawTable) : List String :=
  requiredCols.filter (fun c => !(mappedHeader t).contains c)

/-- Index of the (unique) `Datetime` column in the mapped header. -/
def dtIndex (t : RawTable) : Nat := (mappedHeader t).indexOf "Datetime"

/-- The `Datetime` cell of a row. -/
def dtCell (t : RawTable) (row : List Cell) : Cell :=
  row.getD (dtIndex t) .blank

/-- First phase of the datetime conversion (`pd.to_datetime`, line 131) on
one cell: a blank becomes NaT (`none`), a number is taken as nanoseconds
since the epoch (the pandas default unit), and text is parsed; unparseable
text raises. -/
def dtOpt : Cell → Except TransformError (Option ℚ)
  | .blank => .ok none
  | .num q => .ok (some (q / 1000000000))
  | .text s =>
    match parseDT s with
    | some q => .ok (some q)
    | none => .error (.dtParseError s)

/-- Second phase (`x.timestamp() * 1000`, line 133) on one parsed value:
NaT raises (`NaTType` does not support `timestamp`), otherwise the epoch
seconds are scaled to milliseconds. -/
def msKey : Option ℚ → Except TransformError ℚ
  | some q => .ok (q * 1000)
  | none => .error .natError

/-- One row of the `pd.to_datetime` pass (line 131): the parsed `Datetime`
value paired with the row. -/
def dtPhase1 (t : RawTable) (row : List Cell) :
    Except TransformError (Option ℚ × List Cell) :=
  match dtOpt (dtCell t row) with
  | .error e => .error e
  | .ok o => .ok (o, row)

/-- One row of the `timestamp() * 1000` pass (line 133): the millisecond
sort key paired with the row. -/
def dtPhase2 (p : Option ℚ × List Cell) :
    Except TransformError (ℚ × List Cell) :=
  match msKey p.1 with
  | .error e => .error e
  | .ok k => .ok (k, p.2)

/-- Lines 131-133 over the whole column: every textual `Datetime` cell is
parsed first (the whole-column `to_datetime` raises before any `timestamp`
call runs), then every parsed value is scaled, raising at the first NaT.
Each row is paired with its millisecond sort key. -/
def keyedRows (t : RawTable) : Except TransformError (List (ℚ × List Cell)) :=
  match mapE (dtPhase1 t) t.rows with
  | .error e => .error e
  | .ok opts => mapE dtPhase2 opts

/-- Row lookup `row[c]` inside the loop: with a unique column the scalar cell
is returned; a missing column raises KeyError and a duplicated column yields
a sub-Series, which `float` then rejects. -/
def getCol (t : RawTable) (c : String) (row : List Cell) : Except TransformError Cell :=
  match (mappedHeader t).count c with
  | 0 => .error (.keyError c)
  | 1 => .ok (row.getD ((mappedHeader t).indexOf c) .blank)
  | _ => .error (.seriesError c)

/-- Python `float` applied to one scalar cell (lines 144-147): NaN passes
through, numbers are exact, text must parse as a float literal. -/
def cellFloat : Cell → Except TransformError Val
  | .blank => .ok .nan
  | .num q => .ok (.num q)
  | .text s =>
    match pyFloat s with
    | some v => .ok v
    | none => .error (.floatError s)

/-- `float(row[c])` for one column name: lookup then coercion. -/
def colFloat (t : RawTable) (row : List Cell) (c : String) :
    Except TransformError Val :=
  match getCol t c row with
  | .error e => .error e
  | .ok cell => cellFloat cell

/-- The `y` list of one record: `[float(row[Open]), float(row[High]),
float(row[Low]), float(row[Close])]` (lines 143-148). -/
def buildY (t : RawTable) (row : List Cell) : Except TransformError (List Val) :=
  mapE (colFloat t row) ohlcCols

/-- Truncation toward zero, the behaviour of Python `int` on a float. -/
def truncQ (q : ℚ) : ℤ := if q < 0 then ⌈q⌉ else ⌊q⌋

/-- One record of the output loop: `x = int(ms)` (truncation toward zero,
Python `int` on a float) and the four-element `y` (lines 141-148). -/
def buildRec (t : RawTable) (p : ℚ × List Cell) : Except TransformError ChartRecord :=
  match buildY t p.2 with
  | .error e => .error e
  | .ok ys => .ok ⟨truncQ p.1, ys⟩

/-- Comparison used for the sort of line 136: ascending millisecond key. -/
def msLe (a b : ℚ × List Cell) : Bool := decide (a.1 ≤ b.1)

/-- The whole transform of `get_data` (lines 104-152): schema reconciliation,
datetime conversion, ascending sort by the millisecond key, then the output
loop.  The source sorts with `df.sort_values` (line 136), whose default
`kind="quicksort"` produces some ascending reordering without a stability
guarantee; the model fixes one ascending reordering by using merge sort. -/
def transform (t : RawTable) : Except TransformError (List ChartRecord) :=
  if missingCols t ≠ [] then
    .error (.schemaError (missingCols t) (mappedHeader t))
  else if 2 ≤ (mappedHeader t).count "Datetime" then
    .error .assembleError
  else
    match keyedRows t with
    | .error e => .error e
    | .ok keyed => mapE (buildRec t) (keyed.mergeSort msLe)

/-! ### Decidable helper predicates (used to state hypotheses concretely) -/

/-- Does `needle` occur at the head of `hay`? -/
def startsList : List Char → List Char → Bool
  | [], _ => true
  | _ :: _, [] => false
  | a :: as, b :: bs => a == b && startsList as bs

/-- Does `needle` occur anywhere inside `hay`? -/
def hasSub (needle : List Char) : List Char → Bool
  | [] => startsList needle []
  | c :: cs => startsList needle (c :: cs) || hasSub needle cs

/-- The `Datetime` cell of `row` converts to an actual timestamp (neither a
parse failure nor NaT). -/
def dtOk (t : RawTable) (row : List Cell) : Bool :=
  match dtOpt (dtCell t row) with
  | .ok (some _) => true
  | _ => false

/-- `float(row[c])` succeeds. -/
def colOk (t : RawTable) (row : List Cell) (c : String) : Bool :=
  match colFloat t row c with
  | .ok _ => true
  | _ => false

/-- `row[c]` holds text that `float(...)` rejects. -/
def nonNumericAt (t : RawTable) (row : List Cell) (c : String) : Bool :=
  match getCol t c row with
  | .ok (.text s) => (pyFloat s).isNone
  | _ => false

/-! ### General lemmas about `mapE` -/

theorem mapE_ok_forall₂ {f : α → Except ε β} :
    ∀ {l : List α} {l' : List β}, mapE f l = .ok l' →
      List.Forall₂ (fun a b => f a = .ok b) l l'
  | [], _, h => by
    simp only [mapE] at h
    cases h
    exact .nil
  | a :: l, l', h => by
    simp only [mapE] at h
    cases hfa : f a with
    | error e => rw [hfa] at h; simp at h
    | ok b =>
      rw [hfa] at h
      cases hml : mapE f l with
      | error e => rw [hml] at h; simp at h
      | ok bs =>
        rw [hml] at h
        cases h
        exact .cons hfa (mapE_ok_forall₂ hml)

theorem mapE_ok_of_forall₂ {f : α → Except ε β} {l : List α} {l' : List β}
    (h : List.Forall₂ (fun a b => f a = .ok b) l l') : mapE f l = .ok l' := by
  induction h with
  | nil => rfl
  | cons hR _ ih => simp only [mapE, hR, ih]

theorem mapE_error_mem {f : α → Except ε β} :
    ∀ {l : List α} {e : ε}, mapE f l = .error e → ∃ a ∈ l, f a = .error e
  | [], _, h => by simp only [mapE] at h; cases h
  | a :: l, e, h => by
    simp only [mapE] at h
    cases hfa : f a with
    | error e' =>
      rw [hfa] at h
      cases h
      exact ⟨a, List.mem_cons_self a l, hfa⟩
    | ok b =>
      rw [hfa] at h
      cases hml : mapE f l with
      | error e' =>
        rw [hml] at h
        cases h
        obtain ⟨a', ha', hfa'⟩ := mapE_error_mem hml
        exact ⟨a', List.mem_cons_of_mem a ha', hfa'⟩
      | ok bs => rw [hml] at h; simp at h

theorem mapE_error_of_mem {f : α → Except ε β} :
    ∀ {l : List α} {a : α}, a ∈ l → ∀ {e : ε}, f a = .error e →
      ∃ e', mapE f l = .error e'
  | b :: l, a, ha, e, hfa => by
    simp only [mapE]
    cases hfb : f b with
    | error e' => exact ⟨e', rfl⟩
    | ok v =>
      rcases List.mem_cons.1 ha with rfl | ha'
      · rw [hfb] at hfa; cases hfa
      · obtain ⟨e', he'⟩ := mapE_error_of_mem ha' hfa
        rw [he']
        exact ⟨e', rfl⟩

theorem mapE_ok_of_forall {f : α → Except ε β} :
    ∀ {l : List α}, (∀ a ∈ l, ∃ b, f a = .ok b) →
      ∃ l', mapE f l = .ok l'
  | [], _ => ⟨[], rfl⟩
  | a :: l, h => by
    obtain ⟨b, hb⟩ := h a (List.mem_cons_self a l)
    obtain ⟨bs, hbs⟩ := mapE_ok_of_forall (fun a' ha' => h a' (List.mem_cons_of_mem a ha'))
    exact ⟨b :: bs, by simp only [mapE, hb, hbs]⟩

/-! ### General lemmas about `List.Forall₂` -/

theorem forall₂_mem_left {R : α → β → Prop} {l : List α} {l' : List β}
    (h : List.Forall₂ R l l') : ∀ a ∈ l, ∃ b ∈ l', R a b := by
  induction h with
  | nil => intro a ha; cases ha
  | cons hR _ ih =>
    intro x hx
    rcases List.mem_cons.1 hx with rfl | hx'
    · exact ⟨_, List.mem_cons_self _ _, hR⟩
    · obtain ⟨b, hb, hRb⟩ := ih x hx'
      exact ⟨b, List.mem_cons_of_mem _ hb, hRb⟩

theorem forall₂_mem_right {R : α → β → Prop} {l : List α} {l' : List β}
    (h : List.Forall₂ R l l') : ∀ b ∈ l', ∃ a ∈ l, R a b := by
  induction h with
  | nil => intro b hb; cases hb
  | cons hR _ ih =>
    intro y hy
    rcases List.mem_cons.1 hy with rfl | hy'
    · exact ⟨_, List.mem_cons_self _ _, hR⟩
    · obtain ⟨a, ha, hRa⟩ := ih y hy'
      exact ⟨a, List.mem_cons_of_mem _ ha, hRa⟩

theorem forall₂_pairwise {R : α → β → Prop} {S : α → α → Prop} {S' : β → β → Prop}
    (hco : ∀ a b a' b', R a a' → R b b' → S a b → S' a' b') {l : List α}
    {l' : List β} (h : List.Forall₂ R l l') (hp : l.Pairwise S) :
    l'.Pairwise S' := by
  induction h with
  | nil => exact .nil
  | cons hR hF ih =>
    rcases List.pairwise_cons.1 hp with ⟨hhead, htail⟩
    refine List.pairwise_cons.2 ⟨?_, ih htail⟩
    intro b' hb'
    obtain ⟨a, ha, hRa⟩ := forall₂_mem_right hF b' hb'
    exact hco _ _ _ _ hR hRa (hhead a ha)

/-! ### Truncation toward zero is monotone -/

theorem truncQ_mono {a b : ℚ} (h : a ≤ b) : truncQ a ≤ truncQ b := by
  unfold truncQ
  by_cases ha : a < 0 <;> by_cases hb : b < 0
  · rw [if_pos ha, if_pos hb]
    exact Int.ceil_le_ceil h
  · rw [if_pos ha, if_neg hb]
    have h1 : ⌈a⌉ ≤ 0 := Int.ceil_le.2 (by exact_mod_cast le_of_lt ha)
    have h2 : (0 : ℤ) ≤ ⌊b⌋ := Int.floor_nonneg.2 (not_lt.1 hb)
    omega
  · exact absurd (lt_of_le_of_lt h hb) ha
  · rw [if_neg ha, if_neg hb]
    exact Int.floor_le_floor h

/-! ### Elimination lemmas for the pipeline stages -/

theorem dtPhase1_ok {t : RawTable} {row : List Cell} {p}
    (h : dtPhase1 t row = .ok p) :
    dtOpt (dtCell t row) = .ok p.1 ∧ p.2 = row := by
  unfold dtPhase1 at h
  cases hd : dtOpt (dtCell t row) with
  | error e => rw [hd] at h; cases h
  | ok o => rw [hd] at h; cases h; exact ⟨rfl, rfl⟩

theorem dtPhase2_ok {p : Option ℚ × List Cell} {k}
    (h : dtPhase2 p = .ok k) :
    ∃ q, p.1 = some q ∧ k = (q * 1000, p.2) := by
  unfold dtPhase2 at h
  cases hp : p.1 with
  | none => rw [hp] at h; simp only [msKey] at h; cases h
  | some q => rw [hp] at h; simp only [msKey] at h; cases h; exact ⟨q, rfl, rfl⟩

theorem dtPhase2_ok_of {p : Option ℚ × List Cell} {q : ℚ} (hp : p.1 = some q) :
    dtPhase2 p = .ok (q * 1000, p.2) := by
  unfold dtPhase2
  rw [hp]
  rfl

theorem buildRec_ok {t : RawTable} {p : ℚ × List Cell} {r}
    (h : buildRec t p = .ok r) :
    ∃ ys, buildY t p.2 = .ok ys ∧ r = ⟨truncQ p.1, ys⟩ := by
  unfold buildRec at h
  cases hb : buildY t p.2 with
  | error e => rw [hb] at h; cases h
  | ok ys => rw [hb] at h; cases h; exact ⟨ys, rfl, rfl⟩

theorem buildRec_error {t : RawTable} {p : ℚ × List Cell} {e}
    (h : buildRec t p = .error e) : buildY t p.2 = .error e := by
  unfold buildRec at h
  cases hb : buildY t p.2 with
  | error e' => rw [hb] at h; cases h; rfl
  | ok ys => rw [hb] at h; cases h

theorem getCol_of_count_one {t : RawTable} {c : String}
    (hc : (mappedHeader t).count c = 1) (row : List Cell) :
    getCol t c row = .ok (row.getD ((mappedHeader t).indexOf c) .blank) := by
  unfold getCol
  rw [hc]

theorem colFloat_error_shape {t : RawTable} {row : List Cell} {c : String} {e}
    (hc : (mappedHeader t).count c = 1) (h : colFloat t row c = .error e) :
    ∃ s, e = .floatError s ∧ pyFloat s = none ∧ getCol t c row = .ok (.text s) := by
  have hg := getCol_of_count_one hc row
  unfold colFloat at h
  rw [hg] at h
  cases hcell : row.getD ((mappedHeader t).indexOf c) Cell.blank with
  | blank => rw [hcell] at h; simp only [cellFloat] at h; cases h
  | num q => rw [hcell] at h; simp only [cellFloat] at h; cases h
  | text s =>
    rw [hcell] at h
    simp only [cellFloat] at h
    cases hp : pyFloat s with
    | none =>
      rw [hp] at h
      cases h
      exact ⟨s, rfl, hp, by rw [hg, hcell]⟩
    | some v => rw [hp] at h; cases h

theorem colFloat_of_getCol {t : RawTable} {row : List Cell} {c : String} {cell}
    (hg : getCol t c row = .ok cell) : colFloat t row c = cellFloat cell := by
  unfold colFloat
  rw [hg]

theorem dtOk_elim {t : RawTable} {row : List Cell} (h : dtOk t row = true) :
    ∃ q, dtOpt (dtCell t row) = .ok (some q) := by
  unfold dtOk at h
  cases hd : dtOpt (dtCell t row) with
  | error e => rw [hd] at h; cases h
  | ok o =>
    cases o with
    | none => rw [hd] at h; cases h
    | some q => exact ⟨q, rfl⟩

theorem colOk_elim {t : RawTable} {row : List Cell} {c : String}
    (h : colOk t row c = true) : ∃ v, colFloat t row c = .ok v := by
  unfold colOk at h
  cases hd : colFloat t row c with
  | error e => rw [hd] at h; cases h
  | ok v => exact ⟨v, rfl⟩

theorem nonNumericAt_elim {t : RawTable} {row : List Cell} {c : String}
    (h : nonNumericAt t row c = true) :
    ∃ s, getCol t c row = .ok (.text s) ∧ pyFloat s = none := by
  unfold nonNumericAt at h
  cases hd : getCol t c row with
  | error e => rw [hd] at h; cases h
  | ok cell =>
    cases cell with
    | blank => rw [hd] at h; cases h
    | num q => rw [hd] at h; cases h
    | text s =>
      rw [hd] at h
      exact ⟨s, rfl, Option.isNone_iff_eq_none.1 h⟩

theorem keyedRows_ok_elim {t : RawTable} {ks}
    (h : keyedRows t = .ok ks) :
    ∃ opts, mapE (dtPhase1 t) t.rows = .ok opts ∧ mapE dtPhase2 opts = .ok ks := by
  unfold keyedRows at h
  cases h1 : mapE (dtPhase1 t) t.rows with
  | error e => rw [h1] at h; cases h
  | ok opts => rw [h1] at h; exact ⟨opts, rfl, h⟩

/-- Every keyed row comes from an input row, with the key computed from its
parsed `Datetime` cell. -/
theorem keyedRows_mem {t : RawTable} {ks} (h : keyedRows t = .ok ks) :
    ∀ p ∈ ks, p.2 ∈ t.rows ∧
      ∃ q, dtOpt (dtCell t p.2) = .ok (some q) ∧ p.1 = q * 1000 := by
  obtain ⟨opts, h1, h2⟩ := keyedRows_ok_elim h
  intro p hp
  obtain ⟨o, ho, ho2⟩ := forall₂_mem_right (mapE_ok_forall₂ h2) p hp
  obtain ⟨q, hq, hk⟩ := dtPhase2_ok ho2
  obtain ⟨row, hrow, hrow2⟩ := forall₂_mem_right (mapE_ok_forall₂ h1) o ho
  obtain ⟨hdt, hor⟩ := dtPhase1_ok hrow2
  subst hk
  subst hor
  rw [hq] at hdt
  exact ⟨hrow, q, hdt, rfl⟩

/-- Conversely, every input row appears among the keyed rows with the key
computed from its parsed `Datetime` cell. -/
theorem keyedRows_of_row {t : RawTable} {ks} (h : keyedRows t = .ok ks) :
    ∀ row ∈ t.rows, ∃ q, dtOpt (dtCell t row) = .ok (some q) ∧
      (q * 1000, row) ∈ ks := by
  obtain ⟨opts, h1, h2⟩ := keyedRows_ok_elim h
  intro row hrow
  obtain ⟨o, ho, ho2⟩ := forall₂_mem_left (mapE_ok_forall₂ h1) row hrow
  obtain ⟨hdt, hor⟩ := dtPhase1_ok ho2
  obtain ⟨k, hk, hk2⟩ := forall₂_mem_left (mapE_ok_forall₂ h2) o ho
  obtain ⟨q, hq, hkk⟩ := dtPhase2_ok hk2
  subst hkk
  rw [hq] at hdt
  rw [hor] at hk
  exact ⟨q, hdt, hk⟩

/-- With the two guards passed, the transform is the sorted output loop. -/
theorem transform_eq_body {t : RawTable} (h1 : missingCols t = [])
    (h2 : (mappedHeader t).count "Datetime" < 2) :
    transform t = match keyedRows t with
      | .error e => .error e
      | .ok ks => mapE (buildRec t) (ks.mergeSort msLe) := by
  unfold transform
  rw [if_neg (by simp [h1]), if_neg (by omega)]

theorem transform_ok_elim {t : RawTable} {recs}
    (h : transform t = .ok recs) :
    missingCols t = [] ∧ (mappedHeader t).count "Datetime" < 2 ∧
      ∃ ks, keyedRows t = .ok ks ∧
        mapE (buildRec t) (ks.mergeSort msLe) = .ok recs := by
  unfold transform at h
  by_cases h1 : missingCols t = []
  · rw [if_neg (by simp [h1])] at h
    by_cases h2 : 2 ≤ (mappedHeader t).count "Datetime"
    · rw [if_pos h2] at h; cases h
    · rw [if_neg h2] at h
      refine ⟨h1, by omega, ?_⟩
      cases hk : keyedRows t with
      | error e => rw [hk] at h; cases h
      | ok ks => rw [hk] at h; exact ⟨ks, rfl, h⟩
  · rw [if_pos h1] at h; cases h

/-! ### Claim C2: missing required columns -/

/-- C2: whenever, after case-folding and synonym renaming, at least one of
the five required canonical columns is absent, the transform fails with the
schema error that carries exactly the missing required fields (in the fixed
order of line 124) and the columns actually found, and produces no output
records (the result is an error, not a partial list): lines 124-127. -/
theorem transform_missing_columns_schemaError (t : RawTable)
    (h : ∃ c ∈ requiredCols, c ∉ mappedHeader t) :
    transform t = .error (.schemaError
      (requiredCols.filter (fun c => !(mappedHeader t).contains c))
      (mappedHeader t)) := by
  obtain ⟨c, hc, hnot⟩ := h
  have hm : missingCols t ≠ [] := by
    have hmem : c ∈ missingCols t := List.mem_filter.2 ⟨hc, by simpa using hnot⟩
    exact List.ne_nil_of_mem hmem
  unfold transform
  rw [if_pos hm]
  rfl

/-- Witness for C2 at a concrete table lacking a `close` column
(scenario 2 of the spec): the error lists exactly `Close` as missing. -/
theorem transform_missing_columns_schemaError_witness :
    (∃ c ∈ requiredCols, c ∉ mappedHeader ⟨["date", "open", "high", "low"], []⟩) ∧
      transform ⟨["date", "open", "high", "low"], []⟩ = .error (.schemaError
        (requiredCols.filter
          (fun c => !(mappedHeader ⟨["date", "open", "high", "low"], []⟩).contains c))
        (mappedHeader ⟨["date", "open", "high", "low"], []⟩)) :=
  ⟨by decide, transform_missing_columns_schemaError _ (by decide)⟩

/-! ### Claim C9: determinism -/

/-- C9: the transform is a pure function of the input table, so two runs on
equal tables produce equal (hence byte-identical once serialized) outputs.
The embedding has no hidden state: every quantity `get_data` reads (the
synonym table, the required-column list, the sort, the per-row loop) is a
deterministic function of the table, as the definitions above record. -/
theorem transform_deterministic (t₁ t₂ : RawTable) (h : t₁ = t₂) :
    transform t₁ = transform t₂ := by rw [h]

/-- Witness for C9 at a concrete one-row table. -/
theorem transform_deterministic_witness :
    transform ⟨["date", "open", "high", "low", "close"],
        [[.text "25/04/05 9:15", .num 100, .num 110, .num 95, .num 105]]⟩ =
      transform ⟨["date", "open", "high", "low", "close"],
        [[.text "25/04/05 9:15", .num 100, .num 110, .num 95, .num 105]]⟩ :=
  transform_deterministic _ _ rfl

/-! ### Claim C5: output is sorted by `x` -/

/-- C5: on every successful transform the `x` values are non-decreasing:
the rows are sorted ascending by the millisecond key (line 136) and `x` is
the truncation of that key (line 142), which is monotone. -/
theorem transform_output_sorted (t : RawTable) (recs : List ChartRecord)
    (h : transform t = .ok recs) :
    recs.Pairwise (fun a b => a.x ≤ b.x) := by
  obtain ⟨h1, h2, ks, hks, hmap⟩ := transform_ok_elim h
  have htrans : ∀ a b c : ℚ × List Cell, msLe a b → msLe b c → msLe a c := by
    intro a b c hab hbc
    simp only [msLe, decide_eq_true_eq] at *
    exact le_trans hab hbc
  have htotal : ∀ a b : ℚ × List Cell, msLe a b || msLe b a := by
    intro a b
    simp only [msLe, Bool.or_eq_true, decide_eq_true_eq]
    exact le_total a.1 b.1
  have hsorted := List.sorted_mergeSort htrans htotal ks
  refine forall₂_pairwise ?_ (mapE_ok_forall₂ hmap) hsorted
  intro p p' r r' hpr hp'r' hle
  obtain ⟨ys, hys, hr⟩ := buildRec_ok hpr
  obtain ⟨ys', hys', hr'⟩ := buildRec_ok hp'r'
  subst hr
  subst hr'
  simp only [msLe, decide_eq_true_eq] at hle
  exact truncQ_mono hle

/-- Witness for C5 at a concrete two-row table given in reverse
chronological order. -/
theorem transform_output_sorted_witness :
    List.Pairwise (fun a b : ChartRecord => a.x ≤ b.x)
      [(⟨1114420500000, [.num 5, .num 6, .num 7, .num 8]⟩ : ChartRecord),
       ⟨1114506900000, [.num 1, .num 2, .num 3, .num 4]⟩] :=
  transform_output_sorted
    ⟨["date", "open", "high", "low", "close"],
      [[.text "26/04/05 9:15", .num 1, .num 2, .num 3, .num 4],
       [.text "25/04/05 9:15", .num 5, .num 6, .num 7, .num 8]]⟩
    [⟨1114420500000, [.num 5, .num 6, .num 7, .num 8]⟩,
     ⟨1114506900000, [.num 1, .num 2, .num 3, .num 4]⟩]
    rfl

/-! ### Claim C4: `x` is the truncated epoch-millisecond timestamp -/

/-- C4: on every successful transform, every input row has its `Datetime`
cell parsed to a timestamp `q` in epoch seconds (wall-clock fields mapped
directly, no timezone offset added: pandas applies no conversion to naive
input), and some output record carries `x = truncQ (q * 1000)`, the integer
epoch-millisecond value with sub-millisecond precision truncated
(lines 131, 133 and 142). -/
theorem transform_x_epoch_ms (t : RawTable) (recs : List ChartRecord)
    (h : transform t = .ok recs) :
    ∀ row ∈ t.rows, ∃ q, dtOpt (dtCell t row) = .ok (some q) ∧
      ∃ rec ∈ recs, rec.x = truncQ (q * 1000) := by
  obtain ⟨h1, h2, ks, hks, hmap⟩ := transform_ok_elim h
  intro row hrow
  obtain ⟨q, hdt, hmem⟩ := keyedRows_of_row hks row hrow
  have hsort : (q * 1000, row) ∈ ks.mergeSort msLe := List.mem_mergeSort.2 hmem
  obtain ⟨rec, hrec, hbr⟩ := forall₂_mem_left (mapE_ok_forall₂ hmap) _ hsort
  obtain ⟨ys, hys, hr⟩ := buildRec_ok hbr
  exact ⟨q, hdt, rec, hrec, by rw [hr]⟩

/-- Witness for C4 at the one-row scenario-1 table: the parsed timestamp of
`25/04/05 9:15` is 1114420500 s and the emitted `x` is its millisecond
truncation. -/
theorem transform_x_epoch_ms_witness :
    ∃ q, dtOpt (dtCell
        ⟨["date", "open", "high", "low", "close"],
          [[.text "25/04/05 9:15", .num 100, .num 110, .num 95, .num 105]]⟩
        [.text "25/04/05 9:15", .num 100, .num 110, .num 95, .num 105]) =
          .ok (some q) ∧
      ∃ rec ∈ [(⟨1114420500000, [.num 100, .num 110, .num 95, .num 105]⟩ : ChartRecord)],
        rec.x = truncQ (q * 1000) :=
  transform_x_epoch_ms
    ⟨["date", "open", "high", "low", "close"],
      [[.text "25/04/05 9:15", .num 100, .num 110, .num 95, .num 105]]⟩
    [⟨1114420500000, [.num 100, .num 110, .num 95, .num 105]⟩]
    rfl _ (List.mem_singleton.2 rfl)

/-! ### Further elimination helpers for pairs -/

theorem buildRec_error_of {t : RawTable} {row : List Cell} {e}
    (h : buildY t row = .error e) (k : ℚ) :
    buildRec t (k, row) = .error e := by
  unfold buildRec
  rw [show buildY t ((k, row)).2 = Except.error e from h]

theorem buildRec_ok_pair {t : RawTable} {k : ℚ} {row : List Cell} {rec}
    (h : buildRec t (k, row) = .ok rec) :
    ∃ ys, buildY t row = .ok ys ∧ rec = ⟨truncQ k, ys⟩ := by
  obtain ⟨ys, hys, hr⟩ := buildRec_ok h
  exact ⟨ys, hys, hr⟩

/-! ### Claim C6: empty input -/

/-- C6 (amended): a table with zero data rows whose mapped header has all
five required columns, with a unique `Datetime` column, transforms to the
empty record list, not an error: the loop of lines 140-149 simply runs zero
times.  (The uniqueness condition is forced: see the counterexample.) -/
theorem transform_empty_rows_ok (t : RawTable) (h0 : t.rows = [])
    (h1 : missingCols t = []) (h2 : (mappedHeader t).count "Datetime" = 1) :
    transform t = .ok [] := by
  rw [transform_eq_body h1 (by omega)]
  have hk : keyedRows t = .ok [] := by
    unfold keyedRows
    rw [h0]
    rfl
  rw [hk]
  rfl

/-- Counterexample to C6 as stated: a header-only table whose header
contains all five required canonical columns after mapping (both `date` and
`datetime` are present, so every required column is found and
`missingCols` is empty), yet the transform fails: both source columns are
renamed to `Datetime`, and `pd.to_datetime` on the resulting two-column
selection raises even with zero rows. -/
theorem empty_rows_duplicate_datetime_counterexample :
    (⟨["date", "datetime", "open", "high", "low", "close"], []⟩ : RawTable).rows = [] ∧
      missingCols ⟨["date", "datetime", "open", "high", "low", "close"], []⟩ = [] ∧
      transform ⟨["date", "datetime", "open", "high", "low", "close"], []⟩ =
        .error .assembleError :=
  ⟨rfl, rfl, rfl⟩

/-- Witness for the amended C6 at a concrete header-only table. -/
theorem transform_empty_rows_ok_witness :
    transform ⟨["date", "open", "high", "low", "close"], []⟩ = .ok [] :=
  transform_empty_rows_ok ⟨["date", "open", "high", "low", "close"], []⟩ rfl rfl rfl

/-! ### Claim C7: both `date` and `datetime` present -/

/-- C7 (amended): whenever the schema check passes and more than one source
column maps to `Datetime` (as when both `date` and `datetime` are present),
the transform fails: `df.rename` maps both columns to the same name
`Datetime`, so `df["Datetime"]` selects a two-column DataFrame and
`pd.to_datetime` raises its assemble-mappings ValueError (caught as a 500
response).  Reconciliation does not succeed and no silent overwrite takes
place. -/
theorem transform_duplicate_datetime_error (t : RawTable)
    (h1 : missingCols t = []) (h2 : 2 ≤ (mappedHeader t).count "Datetime") :
    transform t = .error .assembleError := by
  unfold transform
  rw [if_neg (by simp [h1]), if_pos h2]

/-- Counterexample to C7 as stated: with both `date` and `datetime` present
both columns are renamed to `Datetime` (the mapped header counts it twice),
and the transform errors instead of succeeding with a single `Datetime`
column taken from the later-processed source. -/
theorem duplicate_datetime_counterexample :
    (mappedHeader ⟨["date", "datetime", "open", "high", "low", "close"],
        [[.text "25/04/05 9:15", .text "26/04/05 9:15",
          .num 1, .num 2, .num 3, .num 4]]⟩).count "Datetime" = 2 ∧
      transform ⟨["date", "datetime", "open", "high", "low", "close"],
        [[.text "25/04/05 9:15", .text "26/04/05 9:15",
          .num 1, .num 2, .num 3, .num 4]]⟩ = .error .assembleError :=
  ⟨rfl, rfl⟩

/-- Witness for the amended C7 at a concrete table (extra column included,
`datetime` listed first). -/
theorem transform_duplicate_datetime_error_witness :
    transform ⟨["datetime", "date", "open", "high", "low", "close", "extra"], []⟩ =
      .error .assembleError :=
  transform_duplicate_datetime_error
    ⟨["datetime", "date", "open", "high", "low", "close", "extra"], []⟩ rfl (by decide)

/-! ### Claim C3: unparseable values abort the transform -/

/-- Counterexample to C3 as stated: on the scenario-5 table whose `Open`
cell is the text `abc`, the transform aborts with the float conversion
error, but that error carries only the raw value `abc`: the Python message
is `could not convert string to float: ...` followed by the quoted value,
and neither the row index (`0`) nor the column name (`Open`) occurs
anywhere in it — here checked on the full data the error carries. -/
theorem float_error_counterexample :
    transform ⟨["date", "open", "high", "low", "close"],
        [[.text "25/04/05 9:15", .text "abc", .num 110, .num 95, .num 105]]⟩ =
      .error (.floatError "abc") ∧
      hasSub ("Open".toList) ("abc".toList) = false ∧
      hasSub ("0".toList) ("abc".toList) = false :=
  ⟨rfl, rfl, rfl⟩

/-- C3 (amended): if the keyed rows are produced successfully (all datetimes
parse) but some row has an OHLC cell holding text that `float(...)` rejects,
then the whole transform aborts — no partial output — with a float error
naming some offending raw value (the first one hit in sorted order); the
error does not identify the row index or the column. -/
theorem transform_nonnumeric_aborts (t : RawTable) (ks : List (ℚ × List Cell))
    (h1 : missingCols t = [])
    (h2 : (mappedHeader t).count "Datetime" = 1)
    (h3 : ∀ c ∈ ohlcCols, (mappedHeader t).count c = 1)
    (h4 : keyedRows t = .ok ks)
    (h5 : ∃ row ∈ t.rows, ∃ c ∈ ohlcCols, nonNumericAt t row c = true) :
    ∃ s, transform t = .error (.floatError s) ∧ pyFloat s = none := by
  have hbody : transform t = mapE (buildRec t) (ks.mergeSort msLe) := by
    rw [transform_eq_body h1 (by omega), h4]
  obtain ⟨row, hrow, c, hc, hnn⟩ := h5
  obtain ⟨s, hg, hps⟩ := nonNumericAt_elim hnn
  have hcf : colFloat t row c = .error (.floatError s) := by
    rw [colFloat_of_getCol hg]
    simp only [cellFloat]
    rw [hps]
  obtain ⟨q, hdt, hmem⟩ := keyedRows_of_row h4 row hrow
  obtain ⟨eY, heY⟩ := mapE_error_of_mem hc hcf
  have hsort : (q * 1000, row) ∈ ks.mergeSort msLe := List.mem_mergeSort.2 hmem
  obtain ⟨eT, heT⟩ :=
    mapE_error_of_mem hsort (buildRec_error_of heY (q * 1000))
  obtain ⟨p, hp, hpe⟩ := mapE_error_mem heT
  have hprow : p.2 ∈ t.rows := (keyedRows_mem h4 p (List.mem_mergeSort.1 hp)).1
  have hbe : buildY t p.2 = .error eT := buildRec_error hpe
  obtain ⟨c2, hc2, hce⟩ := mapE_error_mem hbe
  obtain ⟨s2, hes, hps2, _⟩ := colFloat_error_shape (h3 c2 hc2) hce
  subst hes
  exact ⟨s2, by rw [hbody]; exact heT, hps2⟩

/-- Witness for the amended C3 at the scenario-5 table. -/
theorem transform_nonnumeric_aborts_witness :
    ∃ s, transform ⟨["date", "open", "high", "low", "close"],
        [[.text "25/04/05 9:15", .text "abc", .num 110, .num 95, .num 105]]⟩ =
          .error (.floatError s) ∧ pyFloat s = none :=
  transform_nonnumeric_aborts
    ⟨["date", "open", "high", "low", "close"],
      [[.text "25/04/05 9:15", .text "abc", .num 110, .num 95, .num 105]]⟩
    [(1114420500000, [.text "25/04/05 9:15", .text "abc", .num 110, .num 95, .num 105])]
    rfl rfl (by decide) rfl (by decide)

/-! ### Claim C8: output record shape -/

/-- Counterexample to C8 as stated: a table with a blank `Open` cell is a
valid input on which the transform succeeds, yet the resulting record
carries a NaN — not a finite float — in its `y` array. -/
theorem blank_cell_nonfinite_counterexample :
    transform ⟨["date", "open", "high", "low", "close"],
        [[.text "25/04/05 9:15", .blank, .num 110, .num 95, .num 105]]⟩ =
      .ok [⟨1114420500000, [.nan, .num 110, .num 95, .num 105]⟩] ∧
      ([Val.nan, .num 110, .num 95, .num 105].all Val.isFinite) = false :=
  ⟨rfl, rfl⟩

/-- C8 (amended): on every successful transform, every output record has a
`y` of length exactly 4 (`Open, High, Low, Close` in the order of lines
144-147); and the four values are finite floats provided every OHLC cell of
the input holds an actual number (blank cells instead yield NaN, and
inf/nan text literals yield the corresponding non-finite floats). -/
theorem transform_y_length_four (t : RawTable) (recs : List ChartRecord)
    (h : transform t = .ok recs) :
    (∀ rec ∈ recs, rec.y.length = 4) ∧
      ((∀ row ∈ t.rows, ∀ c ∈ ohlcCols, ∃ q, getCol t c row = .ok (.num q)) →
        ∀ rec ∈ recs, rec.y.all Val.isFinite = true) := by
  obtain ⟨h1, h2, ks, hks, hmap⟩ := transform_ok_elim h
  have hF := mapE_ok_forall₂ hmap
  constructor
  · intro rec hrec
    obtain ⟨p, hp, hbr⟩ := forall₂_mem_right hF rec hrec
    obtain ⟨ys, hys, hr⟩ := buildRec_ok hbr
    have hlen := (mapE_ok_forall₂ hys).length_eq
    subst hr
    have h4len : ohlcCols.length = 4 := rfl
    show ys.length = 4
    omega
  · intro hnum rec hrec
    obtain ⟨p, hp, hbr⟩ := forall₂_mem_right hF rec hrec
    obtain ⟨ys, hys, hr⟩ := buildRec_ok hbr
    have hprow : p.2 ∈ t.rows := (keyedRows_mem hks p (List.mem_mergeSort.1 hp)).1
    subst hr
    rw [List.all_eq_true]
    intro v hv
    obtain ⟨c, hc, hcf⟩ := forall₂_mem_right (mapE_ok_forall₂ hys) v hv
    obtain ⟨q, hg⟩ := hnum p.2 hprow c hc
    rw [colFloat_of_getCol hg] at hcf
    simp only [cellFloat] at hcf
    injection hcf with hv2
    rw [← hv2]
    rfl

/-- Witness for the amended C8 at the scenario-1 table. -/
theorem transform_y_length_four_witness :
    (∀ rec ∈ [(⟨1114420500000, [.num 100, .num 110, .num 95, .num 105]⟩ : ChartRecord)],
        rec.y.length = 4) ∧
      ((∀ row ∈ (⟨["date", "open", "high", "low", "close"],
          [[.text "25/04/05 9:15", .num 100, .num 110, .num 95, .num 105]]⟩ : RawTable).rows,
          ∀ c ∈ ohlcCols, ∃ q, getCol
            ⟨["date", "open", "high", "low", "close"],
              [[.text "25/04/05 9:15", .num 100, .num 110, .num 95, .num 105]]⟩
            c row = .ok (.num q)) →
        ∀ rec ∈ [(⟨1114420500000, [.num 100, .num 110, .num 95, .num 105]⟩ : ChartRecord)],
          rec.y.all Val.isFinite = true) :=
  transform_y_length_four
    ⟨["date", "open", "high", "low", "close"],
      [[.text "25/04/05 9:15", .num 100, .num 110, .num 95, .num 105]]⟩
    [⟨1114420500000, [.num 100, .num 110, .num 95, .num 105]⟩] rfl

/-! ### Claim C10: blank OHLC cells become NaN -/

/-- C10: if the schema check passes with a unique `Datetime` column, every
`Datetime` cell parses, and `float(...)` succeeds on every OHLC cell (in
particular blank cells, which pandas read as NaN and `float` passes
through), then the transform succeeds, and every row whose OHLC cell at
position `j` is blank contributes a record whose `y` holds NaN at position
`j` — no `ParseError` arises from blank cells (lines 105 and 140-149). -/
theorem transform_blank_cell_nan (t : RawTable)
    (h1 : missingCols t = [])
    (h2 : (mappedHeader t).count "Datetime" = 1)
    (h4 : ∀ row ∈ t.rows, dtOk t row = true)
    (h5 : ∀ row ∈ t.rows, ∀ c ∈ ohlcCols, colOk t row c = true) :
    ∃ recs, transform t = .ok recs ∧
      ∀ row ∈ t.rows, ∀ j, ∀ hj : j < ohlcCols.length,
        getCol t (ohlcCols.get ⟨j, hj⟩) row = .ok .blank →
        ∃ rec ∈ recs, rec.y[j]? = some Val.nan := by
  obtain ⟨opts, hopts⟩ :=
    mapE_ok_of_forall (f := dtPhase1 t) (l := t.rows) (fun row hrow => by
      obtain ⟨q, hq⟩ := dtOk_elim (h4 row hrow)
      exact ⟨(some q, row), by unfold dtPhase1; rw [hq]⟩)
  obtain ⟨ks, hks⟩ :=
    mapE_ok_of_forall (f := dtPhase2) (l := opts) (fun p hp => by
      obtain ⟨row, hrow, hp1⟩ := forall₂_mem_right (mapE_ok_forall₂ hopts) p hp
      obtain ⟨hdt, hor⟩ := dtPhase1_ok hp1
      obtain ⟨q, hq⟩ := dtOk_elim (h4 row hrow)
      rw [hdt] at hq
      injection hq with hq1
      exact ⟨(q * 1000, p.2), dtPhase2_ok_of hq1⟩)
  have hkr : keyedRows t = .ok ks := by
    unfold keyedRows
    rw [hopts]
    exact hks
  obtain ⟨recs, hrecs⟩ :=
    mapE_ok_of_forall (f := buildRec t) (l := ks.mergeSort msLe) (fun p hp => by
      have hprow : p.2 ∈ t.rows := (keyedRows_mem hkr p (List.mem_mergeSort.1 hp)).1
      obtain ⟨ys, hys⟩ :=
        mapE_ok_of_forall (f := colFloat t p.2) (l := ohlcCols)
          (fun c hc => colOk_elim (h5 p.2 hprow c hc))
      exact ⟨⟨truncQ p.1, ys⟩, by
        unfold buildRec
        rw [show buildY t p.2 = Except.ok ys from hys]⟩)
  refine ⟨recs, by rw [transform_eq_body h1 (by omega), hkr]; exact hrecs, ?_⟩
  intro row hrow j hj hblank
  obtain ⟨q, hdt, hmem⟩ := keyedRows_of_row hkr row hrow
  have hsort : (q * 1000, row) ∈ ks.mergeSort msLe := List.mem_mergeSort.2 hmem
  obtain ⟨rec, hrec, hbr⟩ := forall₂_mem_left (mapE_ok_forall₂ hrecs) _ hsort
  obtain ⟨ys, hys, hr⟩ := buildRec_ok_pair hbr
  refine ⟨rec, hrec, ?_⟩
  have hF := mapE_ok_forall₂ hys
  have hlen := hF.length_eq
  have hjy : j < ys.length := by omega
  have hcol := hF.get hj hjy
  rw [colFloat_of_getCol hblank] at hcol
  simp only [cellFloat] at hcol
  injection hcol with hv
  subst hr
  show ys[j]? = some Val.nan
  rw [List.getElem?_eq_getElem hjy]
  have hg : ys[j] = ys.get ⟨j, hjy⟩ := (List.get_eq_getElem ys ⟨j, hjy⟩).symm
  rw [hg, ← hv]

/-- Witness for C10 at a one-row table whose `Open` cell is blank. -/
theorem transform_blank_cell_nan_witness :
    ∃ recs, transform ⟨["date", "open", "high", "low", "close"],
        [[.text "25/04/05 9:15", .blank, .num 110, .num 95, .num 105]]⟩ = .ok recs ∧
      ∀ row ∈ (⟨["date", "open", "high", "low", "close"],
          [[.text "25/04/05 9:15", .blank, .num 110, .num 95, .num 105]]⟩ : RawTable).rows,
        ∀ j, ∀ hj : j < ohlcCols.length,
          getCol ⟨["date", "open", "high", "low", "close"],
              [[.text "25/04/05 9:15", .blank, .num 110, .num 95, .num 105]]⟩
            (ohlcCols.get ⟨j, hj⟩) row = .ok .blank →
          ∃ rec ∈ recs, rec.y[j]? = some Val.nan :=
  transform_blank_cell_nan
    ⟨["date", "open", "high", "low", "close"],
      [[.text "25/04/05 9:15", .blank, .num 110, .num 95, .num 105]]⟩
    rfl rfl (by decide) (by decide)

end Server
